import Mathlib

/-!
Verification of the openvpn3-tui interactive state machine and its
external-tool output parsers, shallowly embedded from the Go sources
(`internal/ui/model.go`, `internal/ui/completer.go`,
`internal/openvpn/client.go`, `internal/config/config.go`).

Go strings are modelled as `List Char` (the inputs of interest are ASCII,
so Go's byte indexing and rune indexing coincide).  Filesystem and process
effects are threaded through an explicit `Env` record of oracles; the
Bubbletea update loop is a pure function `Model → Msg → Model × List Cmd`.
-/

namespace OV3

/-! ### Go `strings` primitives, over `List Char` -/

/-- Go `unicode.IsSpace` restricted to the ASCII whitespace characters. -/
def goIsSpace (c : Char) : Bool :=
  c = ' ' || c = '\t' || c = '\n' || c = '\x0b' || c = '\x0c' || c = '\r'

/-- Go `strings.TrimSpace`: drop whitespace from both ends. -/
def goTrimSpace (s : List Char) : List Char :=
  ((s.dropWhile goIsSpace).reverse.dropWhile goIsSpace).reverse

/-- Go `strings.HasPrefix pat`: does `s` start with `pat`? -/
def goStartsWith : List Char → List Char → Bool
  | _, [] => true
  | [], _ :: _ => false
  | c :: cs, p :: ps => c = p && goStartsWith cs ps

/-- Go `strings.HasSuffix`: does `s` end with `suf`? -/
def goEndsWith (s suf : List Char) : Bool :=
  goStartsWith s.reverse suf.reverse

/-- Go `strings.TrimSuffix`: remove one trailing copy of `suf` if present. -/
def goTrimSuffix (s suf : List Char) : List Char :=
  if goEndsWith s suf then s.take (s.length - suf.length) else s

/-- Go `strings.Index s sub`: index of the first occurrence of `sub` in `s`
(`none` plays the role of Go's `-1`). -/
def findSub (s sub : List Char) : Option Nat :=
  (List.range (s.length + 1)).find? (fun i => goStartsWith (s.drop i) sub)

/-- Go `strings.Contains`. -/
def goContains (s sub : List Char) : Bool :=
  (findSub s sub).isSome

/-- Go `strings.LastIndex s (string-of c)`: index of the last occurrence of
the character `c` (`none` for Go's `-1`). -/
def lastIndexOfChar : List Char → Char → Option Nat
  | [], _ => none
  | x :: xs, c =>
    match lastIndexOfChar xs c with
    | some i => some (i + 1)
    | none => if x = c then some 0 else none

/-- Go `strings.Fields`: split on runs of whitespace, dropping empty parts. -/
def goFields (s : List Char) : List (List Char) :=
  let step := fun (c : Char) (acc : List (List Char) × List Char) =>
    if goIsSpace c then ((if acc.2 = [] then acc.1 else acc.2 :: acc.1), [])
    else (acc.1, c :: acc.2)
  let r := s.foldr step ([], [])
  if r.2 = [] then r.1 else r.2 :: r.1

/-- The lines a `bufio.Scanner` yields: split on `'\n'`, drop a final empty
token after a trailing newline, and strip a trailing `'\r'` per line. -/
def splitOnNL : List Char → List (List Char)
  | [] => [[]]
  | '\n' :: rest => [] :: splitOnNL rest
  | c :: rest =>
    match splitOnNL rest with
    | [] => [[c]]
    | l :: ls => (c :: l) :: ls

/-- Strip one trailing carriage return (Go `dropCR` in `bufio.ScanLines`). -/
def dropCR (l : List Char) : List Char :=
  if l.getLast? = some '\r' then l.dropLast else l

/-- All lines of a byte buffer, as `bufio.NewScanner(...).Scan`/`Text` yields
them. -/
def goLines (s : List Char) : List (List Char) :=
  match s with
  | [] => []
  | _ :: _ =>
    let parts := splitOnNL s
    let parts := if s.getLast? = some '\n' then parts.dropLast else parts
    parts.map dropCR

/-! ### `internal/openvpn/client.go`: parsing `openvpn3` output -/

/-- Go `Session` (client.go): one block of `openvpn3 sessions-list` output. -/
structure Session where
  path : List Char
  configName : List Char
  created : List Char
  owner : List Char
  status : List Char
  device : List Char
  connectedTo : List Char
deriving DecidableEq

/-- The zero `Session` value (`&Session{}`). -/
def emptySession : Session := ⟨[], [], [], [], [], [], []⟩

/-- Go `SessionStats` (client.go). -/
structure SessionStats where
  bytesIn : List Char
  bytesOut : List Char
  packetsIn : List Char
  packetsOut : List Char
  tunnelIP : List Char
  tunnelIPv6 : List Char
  connected : List Char
deriving DecidableEq

/-- The zero `SessionStats` value. -/
def emptyStats : SessionStats := ⟨[], [], [], [], [], [], []⟩

/-- Inner condition of `extractValue`'s scan: after trimming leading blanks,
does the tail start a new `Key:` field (uppercase-initial token whose first
colon is at an index strictly between 0 and 20)? -/
def isFieldStart (tail : List Char) : Bool :=
  let trimmed := tail.dropWhile (fun c => c = ' ')
  match trimmed with
  | [] => false
  | c :: _ =>
    ('A' ≤ c && c ≤ 'Z') &&
      (match trimmed.findIdx? (fun d => d = ':') with
       | some colonIdx => decide (0 < colonIdx) && decide (colonIdx < 20)
       | none => false)

/-- Go `extractValue` (client.go): the value after `key` in `line`, ended at the
first position `i > 0` holding a space where a new `Key:` field begins. -/
def extractValue (line key : List Char) : List Char :=
  match findSub line key with
  | none => []
  | some idx =>
    let rest := line.drop (idx + key.length)
    let value :=
      match (List.range (rest.length - 1)).find?
          (fun i => decide (0 < i) && (rest.drop i).head? = some ' '
                      && isFieldStart (rest.drop i)) with
      | some i => rest.take i
      | none => rest
    goTrimSpace value

/-- The literal `"(Config not available)"` marker stripped from config
names. -/
def cNotAvailable : List Char := ("(Config not available)").toList

/-- The final path segment: everything after the last `'/'` (the whole string
when it holds no `'/'`).  This is the inline `strings.LastIndex`/slice step
shared by `parseSessionsList` and `isProfileConnected`. -/
def lastSegmentOf (l : List Char) : List Char :=
  match lastIndexOfChar l '/' with
  | some i => l.drop (i + 1)
  | none => l

/-- The config-name post-processing inlined in `parseSessionsList`
(client.go, `Config name:` branch): truncate at the first occurrence of
`"(Config not available)"` and trim, keep the final path segment, strip a
trailing `".ovpn"`. -/
def processConfigName (raw : List Char) : List Char :=
  let configName :=
    match findSub raw cNotAvailable with
    | some idx => goTrimSpace (raw.take idx)
    | none => raw
  let configName := lastSegmentOf configName
  goTrimSuffix configName ((".ovpn").toList)

/-- One iteration of the `scanner.Scan()` loop of `parseSessionsList`:
state is (flushed sessions, session under construction). -/
def applySessionLine (st : List Session × Option Session) (line : List Char) :
    List Session × Option Session :=
  let sessions := st.1
  let current := st.2
  if goStartsWith (goTrimSpace line) (("---").toList) then (sessions, current)
  else if goContains line (("Path:").toList) then
    ((match current with
      | some c => sessions ++ [c]
      | none => sessions),
     some { emptySession with path := extractValue line (("Path:").toList) })
  else
    match current with
    | none => (sessions, none)
    | some c =>
      let c := if goContains line (("Created:").toList) then
          { c with created := extractValue line (("Created:").toList) } else c
      let c := if goContains line (("Owner:").toList) then
          { c with owner := extractValue line (("Owner:").toList) } else c
      let c := if goContains line (("Device:").toList) then
          { c with device := extractValue line (("Device:").toList) } else c
      let c := if goContains line (("Config name:").toList) then
          { c with configName :=
              processConfigName (extractValue line (("Config name:").toList)) } else c
      let c := if goContains line (("Connected to:").toList) then
          { c with connectedTo := extractValue line (("Connected to:").toList) } else c
      let c := if goContains line (("Status:").toList) then
          { c with status := extractValue line (("Status:").toList) } else c
      (sessions, some c)

/-- Go `parseSessionsList` (client.go): fold the line handler over the output
and flush the last block. -/
def parseSessionsList (output : List Char) : List Session :=
  let r := (goLines output).foldl applySessionLine ([], none)
  match r.2 with
  | some c => r.1 ++ [c]
  | none => r.1

/-- The digits read by `fmt.Sscanf`'s `%d` verb. -/
def readDigits (l : List Char) : List Char :=
  l.takeWhile (fun c => '0' ≤ c && c ≤ '9')

/-- Decimal value of a digit string. -/
def digitsToNat (ds : List Char) : Nat :=
  ds.foldl (fun acc c => acc * 10 + (c.toNat - ('0').toNat)) 0

/-- Go `fmt.Sscanf(s, "%d", &x)` for an `int64` target: skip leading
whitespace, read an optional sign and at least one digit, and fail (leaving
the target at its zero value) when no digit follows or the value overflows
`int64`. -/
def goScanInt (s : List Char) : Option Int :=
  let t := s.dropWhile goIsSpace
  let signed : Bool × List Char :=
    match t with
    | '-' :: r => (true, r)
    | '+' :: r => (false, r)
    | _ => (false, t)
  let ds := readDigits signed.2
  if ds = [] then none
  else
    let n : Int := if signed.1 then -(digitsToNat ds : Int) else (digitsToNat ds : Int)
    if n < -(2 ^ 63) ∨ 2 ^ 63 ≤ n then none else some n

/-- Round `num / den` (both `Nat`, `den > 0`) to the nearest integer, ties
to even — the rounding `%.2f` applies once the quotient is scaled by 100.
At every input evaluated in this development the quotient is exact, so this
agrees with Go's `float64` formatting there. -/
def twoDecRound (num den : Nat) : Nat :=
  let q := num / den
  let rem := num % den
  if den < 2 * rem then q + 1
  else if 2 * rem < den then q
  else if q % 2 = 0 then q else q + 1

/-- Go `fmt.Sprintf("%.2f", num/den)` for a non-negative exact quotient: the
integer part, a dot, and a zero-padded two-digit fraction. -/
def fmtTwoDec (num den : Nat) : List Char :=
  let scaled := twoDecRound (num * 100) den
  let ip := scaled / 100
  let fp := scaled % 100
  (Nat.repr ip).toList ++ '.' ::
    (if fp < 10 then '0' :: (Nat.repr fp).toList else (Nat.repr fp).toList)

/-- Go `formatBytes` (client.go): scan the decimal value (zero when the scan
fails) and render it in the largest applicable 1024-based unit. -/
def formatBytes (bytesStr : List Char) : List Char :=
  let bytes : Int := (goScanInt bytesStr).getD 0
  if 1073741824 ≤ bytes then fmtTwoDec bytes.toNat 1073741824 ++ (" GB").toList
  else if 1048576 ≤ bytes then fmtTwoDec bytes.toNat 1048576 ++ (" MB").toList
  else if 1024 ≤ bytes then fmtTwoDec bytes.toNat 1024 ++ (" KB").toList
  else (Int.repr bytes).toList ++ (" B").toList

/-- One line of `parseSessionStats` (client.go): trim, turn the dot filler
into spaces, split into fields, and dispatch on the first field. -/
def applyStatsLine (stats : SessionStats) (rawLine : List Char) : SessionStats :=
  let line := goTrimSpace rawLine
  let line := line.map (fun c => if c = '.' then ' ' else c)
  let fields := goFields line
  if fields.length < 2 then stats
  else
    let key := fields.headD []
    let value := fields.getLastD []
    if key = ("BYTES_IN").toList then { stats with bytesIn := formatBytes value }
    else if key = ("BYTES_OUT").toList then { stats with bytesOut := formatBytes value }
    else if key = ("PACKETS_IN").toList then { stats with packetsIn := value }
    else if key = ("PACKETS_OUT").toList then { stats with packetsOut := value }
    else if key = ("TUN_BYTES_IN").toList then
      { stats with tunnelIP := formatBytes value ++ (" (TUN in)").toList }
    else if key = ("TUN_BYTES_OUT").toList then
      { stats with tunnelIPv6 := formatBytes value ++ (" (TUN out)").toList }
    else stats

/-- Go `parseSessionStats` (client.go). -/
def parseSessionStats (output : List Char) : SessionStats :=
  (goLines output).foldl applyStatsLine emptyStats

/-! ### `internal/config/config.go`: the profile store -/

/-- Go `Profile` (config.go). -/
structure Profile where
  name : List Char
  path : List Char
deriving DecidableEq

/-- Go `Config.RemoveProfile` (config.go): drop the entry at `index` when it is
in bounds (`index` is a Go `int`, so it is modelled as `Int`), otherwise
leave the list alone. -/
def removeProfile (profiles : List Profile) (index : Int) : List Profile :=
  if 0 ≤ index ∧ index < profiles.length then
    profiles.take index.toNat ++ profiles.drop (index.toNat + 1)
  else profiles

/-! ### `internal/ui`: the interactive state machine (`Model.Update`) -/

/-- Go `View` (model.go). -/
inductive View
  | profiles
  | sessions
deriving DecidableEq

/-- Go `InputMode` (model.go). -/
inductive InputMode
  | noInput
  | profilePath
  | profileName
deriving DecidableEq

/-- The keys `Model.Update` / `handleInputMode` switch on (via
`msg.String()`); `other` stands for every remaining key, which the normal
mode ignores and input mode forwards to the text input. -/
inductive Key
  | q
  | ctrlC
  | tab
  | shiftTab
  | up
  | k
  | down
  | j
  | enter
  | a
  | d
  | del
  | r
  | s
  | esc
  | backspace
  | char (c : Char)
  | other
deriving DecidableEq

/-- The commands (`tea.Cmd`) the update function can schedule; the four
task commands deliver exactly one result message each. -/
inductive Cmd
  | quit
  | spinnerTick
  | refreshSessions
  | fetchStats (path : List Char)
  | connect (path : List Char)
  | disconnect (path : List Char)
  | blink
  | watchTheme
deriving DecidableEq

/-- The messages `Model.Update` handles: keystrokes, window sizing, the four
task-completion messages (each carrying an optional error string), the
theme-watch event and the spinner tick. -/
inductive Msg
  | key (pressed : Key)
  | windowSize (w h : Int)
  | sessionRefresh (sessions : List Session) (err : Option (List Char))
  | statsRefresh (stats : SessionStats) (err : Option (List Char))
  | connectResult (err : Option (List Char))
  | disconnectResult (err : Option (List Char))
  | themeChanged
  | spinnerTick

/-- Go `PathCompleter` (completer.go): its pure state.  Suggestion production
(`getSuggestions`) reads the filesystem and lives in `Env`. -/
structure Completer where
  suggestions : List (List Char)
  selectedIndex : Int
deriving DecidableEq

/-- Go `PathCompleter.HasSuggestions`. -/
def Completer.hasSuggestions (c : Completer) : Bool :=
  decide (0 < c.suggestions.length)

/-- Go `PathCompleter.SelectNext`: advance and wrap to 0 past the end. -/
def Completer.selectNext (c : Completer) : Completer :=
  if c.suggestions.length = 0 then c
  else if (c.suggestions.length : Int) ≤ c.selectedIndex + 1 then
    { c with selectedIndex := 0 }
  else { c with selectedIndex := c.selectedIndex + 1 }

/-- Go `PathCompleter.SelectPrev`: step back and wrap to the last entry. -/
def Completer.selectPrev (c : Completer) : Completer :=
  if c.suggestions.length = 0 then c
  else if c.selectedIndex - 1 < 0 then
    { c with selectedIndex := (c.suggestions.length : Int) - 1 }
  else { c with selectedIndex := c.selectedIndex - 1 }

/-- Go `PathCompleter.GetSelected`: the selected suggestion, or `""`. -/
def Completer.getSelected (c : Completer) : List Char :=
  if 0 ≤ c.selectedIndex ∧ c.selectedIndex < c.suggestions.length then
    c.suggestions.getD c.selectedIndex.toNat []
  else []

/-- Go `PathCompleter.Clear`. -/
def Completer.clear (_ : Completer) : Completer :=
  { suggestions := [], selectedIndex := -1 }

/-- The external effects one event application may consult: the result of
`config.Save`, the file-existence check behind `config.ValidateProfiles`,
`os.UserHomeDir`, and the filesystem scan behind
`PathCompleter.getSuggestions`. -/
structure Env where
  saveResult : Option (List Char)
  validate : List Profile → Nat → Bool
  home : Option (List Char)
  complete : List Char → List (List Char)

/-- Go `PathCompleter.Update` (completer.go): refresh the suggestions for the
input (empty input yields no suggestions before any filesystem access) and
reset the selection. -/
def Completer.updateC (env : Env) (input : List Char) : Completer :=
  { suggestions := if input = [] then [] else env.complete input,
    selectedIndex := -1 }

/-- Go `Model` (model.go): the UI state the claims are about.  The spinner and
lipgloss style values are pure presentation owned by external libraries and
are not part of the state machine; the text input is modelled by its
value. -/
structure Model where
  profiles : List Profile
  sessions : List Session
  currentView : View
  profileCursor : Nat
  sessionCursor : Nat
  profileValid : Nat → Bool
  selectedStats : Option SessionStats
  loading : Bool
  loadingMsg : List Char
  inputMode : InputMode
  textValue : List Char
  newProfile : Profile
  completer : Completer
  statusMsg : List Char
  errorMsg : List Char
  width : Int
  height : Int

/-- ASCII apostrophe, as used by `fmt.Sprintf` in the already-connected
error. -/
def squote : Char := Char.ofNat 39

/-- Go `clearMessages` (model.go). -/
def Model.clearMessages (m : Model) : Model :=
  { m with statusMsg := [], errorMsg := [] }

/-- Go `moveCursorUp` (model.go). -/
def Model.moveCursorUp (m : Model) : Model :=
  let m :=
    if m.currentView = View.profiles then
      if 0 < m.profileCursor then { m with profileCursor := m.profileCursor - 1 } else m
    else
      if 0 < m.sessionCursor then { m with sessionCursor := m.sessionCursor - 1 } else m
  { m with selectedStats := none }

/-- Go `moveCursorDown` (model.go). -/
def Model.moveCursorDown (m : Model) : Model :=
  let m :=
    if m.currentView = View.profiles then
      if m.profileCursor + 1 < m.profiles.length then
        { m with profileCursor := m.profileCursor + 1 } else m
    else
      if m.sessionCursor + 1 < m.sessions.length then
        { m with sessionCursor := m.sessionCursor + 1 } else m
  { m with selectedStats := none }

/-- Go `isProfileConnected` (model.go): normalize the profile path to its bare
final segment without `".ovpn"` and compare with every session's config
name. -/
def Model.isProfileConnected (m : Model) (profilePath : List Char) : Bool :=
  let profileName := lastSegmentOf profilePath
  let profileName := goTrimSuffix profileName ((".ovpn").toList)
  m.sessions.any (fun s => s.configName = profileName)

/-- Go `handleEnter` (model.go). -/
def Model.handleEnter (m : Model) : Model × List Cmd :=
  let m := m.clearMessages
  if m.currentView = View.profiles then
    if m.profiles.length = 0 then (m, [])
    else if !(m.profileValid m.profileCursor) then
      ({ m with errorMsg := ("Config file not found").toList }, [])
    else
      let profile := m.profiles.getD m.profileCursor ⟨[], []⟩
      if m.isProfileConnected profile.path then
        ({ m with errorMsg :=
            squote :: (profile.name ++ squote :: (" is already connected").toList) }, [])
      else
        ({ m with
            statusMsg := ("Connecting to ").toList ++ profile.name ++ ("...").toList,
            loading := true,
            loadingMsg := ("Connecting...").toList },
         [Cmd.spinnerTick, Cmd.connect profile.path])
  else
    if 0 < m.sessions.length then
      ({ m with loading := true, loadingMsg := ("Fetching stats...").toList },
       [Cmd.spinnerTick, Cmd.fetchStats (m.sessions.getD m.sessionCursor emptySession).path])
    else (m, [])

/-- Go `handleDelete` (model.go): in Profiles remove, save, re-validate and
clamp the cursor synchronously; in Sessions schedule a disconnect task. -/
def Model.handleDelete (m : Model) (env : Env) : Model × List Cmd :=
  let m := m.clearMessages
  if m.currentView = View.profiles then
    if 0 < m.profiles.length then
      let name := (m.profiles.getD m.profileCursor ⟨[], []⟩).name
      let m := { m with profiles := removeProfile m.profiles (m.profileCursor : Int) }
      let m :=
        match env.saveResult with
        | some e => { m with errorMsg := ("Failed to save config: ").toList ++ e }
        | none => { m with statusMsg := ("Removed profile: ").toList ++ name }
      let m := { m with profileValid := env.validate m.profiles }
      let m :=
        if m.profiles.length ≤ m.profileCursor then
          { m with profileCursor := max 0 (m.profiles.length - 1) }
        else m
      (m, [])
    else (m, [])
  else
    if 0 < m.sessions.length then
      ({ m with statusMsg := ("Disconnecting...").toList },
       [Cmd.disconnect (m.sessions.getD m.sessionCursor emptySession).path])
    else (m, [])

/-- Go `startAddProfile` (model.go). -/
def Model.startAddProfile (m : Model) : Model × List Cmd :=
  let m := { m with inputMode := InputMode.profilePath, textValue := [] }
  (m.clearMessages, [Cmd.blink])

/-- Go `handleInputMode` (model.go): modal text entry for the add-profile
flow. -/
def Model.handleInputMode (m : Model) (env : Env) (key : Key) : Model × List Cmd :=
  match key with
  | Key.esc =>
    ({ m with inputMode := InputMode.noInput, newProfile := ⟨[], []⟩,
              completer := m.completer.clear }, [])
  | Key.tab =>
    if m.inputMode = InputMode.profilePath ∧ m.completer.hasSuggestions then
      let comp := m.completer.selectNext
      let selected := comp.getSelected
      if selected ≠ [] then
        ({ m with textValue := selected, completer := Completer.updateC env selected }, [])
      else ({ m with completer := comp }, [])
    else (m, [])
  | Key.shiftTab =>
    if m.inputMode = InputMode.profilePath ∧ m.completer.hasSuggestions then
      let comp := m.completer.selectPrev
      let selected := comp.getSelected
      if selected ≠ [] then
        ({ m with textValue := selected, completer := Completer.updateC env selected }, [])
      else ({ m with completer := comp }, [])
    else (m, [])
  | Key.enter =>
    let value := goTrimSpace m.textValue
    if value = [] then (m, [])
    else if m.inputMode = InputMode.profilePath then
      let expandedPath :=
        if goStartsWith value (("~").toList) then
          match env.home with
          | some home => home ++ value.drop 1
          | none => value
        else value
      ({ m with newProfile := { m.newProfile with path := expandedPath },
                inputMode := InputMode.profileName, textValue := [],
                completer := m.completer.clear }, [])
    else if m.inputMode = InputMode.profileName then
      let committed : Profile := ⟨value, m.newProfile.path⟩
      let profiles := m.profiles ++ [committed]
      let m := { m with profiles := profiles }
      let m :=
        match env.saveResult with
        | some e => { m with errorMsg := ("Failed to save config: ").toList ++ e }
        | none => { m with statusMsg := ("Added profile: ").toList ++ committed.name }
      ({ m with profileValid := env.validate profiles,
                inputMode := InputMode.noInput, newProfile := ⟨[], []⟩,
                completer := m.completer.clear }, [])
    else (m, [])
  | fallthroughKey =>
    let value :=
      match fallthroughKey with
      | Key.backspace => m.textValue.dropLast
      | Key.char c => m.textValue ++ [c]
      | _ => m.textValue
    let m := { m with textValue := value }
    let m :=
      if m.inputMode = InputMode.profilePath then
        { m with completer := Completer.updateC env value }
      else m
    (m, [])

/-- Go `Model.Update` (model.go): the discrete-event transition function.  One
message in, a new model and the scheduled commands out. -/
def Model.update (m : Model) (env : Env) (msg : Msg) : Model × List Cmd :=
  match msg with
  | Msg.spinnerTick => (m, [Cmd.spinnerTick])
  | Msg.key pressed =>
    if m.inputMode ≠ InputMode.noInput then m.handleInputMode env pressed
    else
      match pressed with
      | Key.q => (m, [Cmd.quit])
      | Key.ctrlC => (m, [Cmd.quit])
      | Key.tab =>
        let m :=
          if m.currentView = View.profiles then { m with currentView := View.sessions }
          else { m with currentView := View.profiles }
        (m.clearMessages, [])
      | Key.up => (m.moveCursorUp, [])
      | Key.k => (m.moveCursorUp, [])
      | Key.down => (m.moveCursorDown, [])
      | Key.j => (m.moveCursorDown, [])
      | Key.enter => m.handleEnter
      | Key.a => if m.currentView = View.profiles then m.startAddProfile else (m, [])
      | Key.d => m.handleDelete env
      | Key.del => m.handleDelete env
      | Key.r =>
        let m := m.clearMessages
        ({ m with loading := true, loadingMsg := ("Refreshing sessions...").toList },
         [Cmd.spinnerTick, Cmd.refreshSessions])
      | Key.s =>
        if m.currentView = View.sessions ∧ 0 < m.sessions.length then
          ({ m with loading := true, loadingMsg := ("Fetching stats...").toList },
           [Cmd.spinnerTick,
            Cmd.fetchStats (m.sessions.getD m.sessionCursor emptySession).path])
        else (m, [])
      | _ => (m, [])
  | Msg.windowSize w h => ({ m with width := w, height := h }, [])
  | Msg.sessionRefresh sessions err =>
    let m := { m with loading := false }
    (match err with
     | some e => ({ m with errorMsg := ("Failed to fetch sessions: ").toList ++ e }, [])
     | none =>
       let m := { m with sessions := sessions }
       let m :=
         if m.sessions.length ≤ m.sessionCursor then
           { m with sessionCursor := max 0 (m.sessions.length - 1) }
         else m
       (m, []))
  | Msg.statsRefresh stats err =>
    let m := { m with loading := false }
    (match err with
     | some e => ({ m with errorMsg := ("Failed to fetch stats: ").toList ++ e }, [])
     | none => ({ m with selectedStats := some stats }, []))
  | Msg.connectResult err =>
    let m := { m with loading := false }
    (match err with
     | some e => ({ m with errorMsg := ("Connection failed: ").toList ++ e }, [])
     | none =>
       ({ m with statusMsg := ("Connected successfully!").toList,
                 loading := true,
                 loadingMsg := ("Refreshing sessions...").toList },
        [Cmd.spinnerTick, Cmd.refreshSessions]))
  | Msg.disconnectResult err =>
    let m := { m with loading := false }
    (match err with
     | some e => ({ m with errorMsg := ("Disconnect failed: ").toList ++ e }, [])
     | none =>
       ({ m with statusMsg := ("Disconnected successfully!").toList,
                 selectedStats := none,
                 loading := true,
                 loadingMsg := ("Refreshing sessions...").toList },
        [Cmd.spinnerTick, Cmd.refreshSessions]))
  | Msg.themeChanged => (m, [Cmd.watchTheme])

/-- The message section of `Model.View` (model.go): the error line is
rendered when `errorMsg` is non-empty, and the status line when `statusMsg`
is non-empty — independently of each other. -/
def Model.viewMessages (m : Model) : List (List Char) :=
  (if m.errorMsg ≠ [] then [m.errorMsg] else []) ++
    (if m.statusMsg ≠ [] then [m.statusMsg] else [])

/-! ### Spec-side definitions

These follow the wording of the specification, for comparison with the
definitions translated from the source. -/

/-- The spec's "final path segment": the longest `'/'`-free suffix. -/
def finalSegment (l : List Char) : List Char :=
  (l.reverse.takeWhile (fun c => c != '/')).reverse

/-- The spec's normalization of a profile path for the connected-match:
"the profile path reduced to its final path segment with a trailing
`.ovpn` suffix removed". -/
def specConnectedName (path : List Char) : List Char :=
  goTrimSuffix (finalSegment path) ((".ovpn").toList)

/-- The spec's "raw value with any trailing `(Config not available)` suffix
stripped (and surrounding whitespace trimmed)". -/
def specStripMarker (raw : List Char) : List Char :=
  if goEndsWith raw cNotAvailable then
    goTrimSpace (raw.take (raw.length - cNotAvailable.length))
  else raw

/-- The spec's config-name pipeline: strip a trailing availability marker,
keep the final path segment, remove a trailing `.ovpn` extension. -/
def specConfigName (raw : List Char) : List Char :=
  goTrimSuffix (finalSegment (specStripMarker raw)) ((".ovpn").toList)

/-! ### Concrete fixtures used by witnesses and counterexamples -/

/-- An environment where every external effect succeeds trivially. -/
def env0 : Env :=
  ⟨none, fun _ _ => true, none, fun _ => []⟩

/-- A model holding one valid, unconnected profile, in the Profiles view. -/
def m4 : Model :=
  { profiles := [⟨("Work").toList, ("/home/u/Work.ovpn").toList⟩],
    sessions := [], currentView := View.profiles, profileCursor := 0,
    sessionCursor := 0, profileValid := fun _ => true, selectedStats := none,
    loading := false, loadingMsg := [], inputMode := InputMode.noInput,
    textValue := [], newProfile := ⟨[], []⟩, completer := ⟨[], -1⟩,
    statusMsg := [], errorMsg := [], width := 0, height := 0 }

/-- The model `m4` with a stale, out-of-bounds profile cursor. -/
def mStaleCursor : Model :=
  { m4 with profileCursor := 5 }

/-- The multi-field `Config name:` line whose raw extracted value holds the
availability marker in mid-string. -/
def c8Line : List Char :=
  ("   Config name: x(Config not available)y.ovpn").toList

/-- A two-line `sessions-list` output ending in `c8Line`. -/
def c8Listing : List Char :=
  ("Path: /net/dbus/p1\n").toList ++ c8Line

/-! ### Helper lemmas about the Go string primitives -/

theorem goStartsWith_iff : ∀ s p : List Char, goStartsWith s p = true ↔ ∃ t, s = p ++ t
  | s, [] => by
    have hs : goStartsWith s [] = true := by cases s <;> rfl
    simp [hs]
  | [], q :: ps => by
    simp [goStartsWith]
  | c :: cs, q :: ps => by
    simp only [goStartsWith, Bool.and_eq_true, decide_eq_true_eq]
    rw [goStartsWith_iff cs ps]
    constructor
    · rintro ⟨hc, t, ht⟩
      exact ⟨t, by simp [hc, ht]⟩
    · rintro ⟨t, ht⟩
      rw [List.cons_append] at ht
      injection ht with h1 h2
      exact ⟨h1, t, h2⟩

theorem goEndsWith_iff (s p : List Char) : goEndsWith s p = true ↔ ∃ t, s = t ++ p := by
  unfold goEndsWith
  rw [goStartsWith_iff]
  constructor
  · rintro ⟨t, ht⟩
    refine ⟨t.reverse, ?_⟩
    have h2 := congrArg List.reverse ht
    simpa using h2
  · rintro ⟨t, ht⟩
    exact ⟨t.reverse, by simp [ht]⟩

theorem lastIndexOfChar_eq_none : ∀ (l : List Char) (c : Char),
    lastIndexOfChar l c = none ↔ c ∉ l
  | [], c => by simp [lastIndexOfChar]
  | x :: xs, c => by
    unfold lastIndexOfChar
    cases h : lastIndexOfChar xs c with
    | some i =>
      have hmem : c ∈ xs := by
        by_contra hn
        rw [(lastIndexOfChar_eq_none xs c).mpr hn] at h
        cases h
      simp [hmem]
    | none =>
      have hn : c ∉ xs := (lastIndexOfChar_eq_none xs c).mp h
      by_cases hx : x = c
      · simp [hx]
      · simp [hx, hn, Ne.symm hx]

theorem takeWhile_append_of_exists {α : Type} {p : α → Bool} :
    ∀ (l r : List α), (∃ y ∈ l, p y = false) →
      (l ++ r).takeWhile p = l.takeWhile p
  | [], _, h => by simp at h
  | a :: l, r, h => by
    by_cases hpa : p a
    · have h' : ∃ y ∈ l, p y = false := by
        rcases h with ⟨y, hy, hpy⟩
        rcases List.mem_cons.mp hy with rfl | hyl
        · rw [hpa] at hpy; cases hpy
        · exact ⟨y, hyl, hpy⟩
      simp only [List.cons_append, List.takeWhile_cons, hpa, if_true]
      rw [takeWhile_append_of_exists l r h']
    · simp [List.takeWhile_cons, hpa]

theorem takeWhile_append_of_forall {α : Type} {p : α → Bool} :
    ∀ (l r : List α), (∀ y ∈ l, p y = true) →
      (l ++ r).takeWhile p = l ++ r.takeWhile p
  | [], _, _ => by simp
  | a :: l, r, h => by
    have hpa : p a = true := h a (List.mem_cons_self a l)
    simp only [List.cons_append, List.takeWhile_cons, hpa, if_true]
    rw [takeWhile_append_of_forall l r (fun y hy => h y (List.mem_cons_of_mem a hy))]

theorem lastSegmentOf_eq : ∀ l : List Char, lastSegmentOf l = finalSegment l
  | [] => rfl
  | x :: xs => by
    unfold lastSegmentOf finalSegment
    cases hlast : lastIndexOfChar xs '/' with
    | some i =>
      simp only [lastIndexOfChar, hlast, List.drop_succ_cons]
      have hmem : '/' ∈ xs := by
        by_contra hn
        rw [(lastIndexOfChar_eq_none xs '/').mpr hn] at hlast
        cases hlast
      have hex : ∃ y ∈ xs.reverse, (y != '/') = false :=
        ⟨'/', List.mem_reverse.mpr hmem, by simp⟩
      rw [List.reverse_cons, takeWhile_append_of_exists _ _ hex]
      have hxs := lastSegmentOf_eq xs
      unfold lastSegmentOf finalSegment at hxs
      rw [hlast] at hxs
      exact hxs
    | none =>
      have hn : '/' ∉ xs := (lastIndexOfChar_eq_none xs '/').mp hlast
      have hall : ∀ y ∈ xs.reverse, (y != '/') = true := by
        intro y hy
        have : y ∈ xs := List.mem_reverse.mp hy
        simp only [bne_iff_ne, ne_eq]
        intro hEq
        exact hn (hEq ▸ this)
      by_cases hx : x = '/'
      · simp only [lastIndexOfChar, hlast, hx, if_true, List.drop_succ_cons,
          List.drop_zero, List.reverse_cons]
        rw [takeWhile_append_of_forall _ _ hall]
        simp
      · simp only [lastIndexOfChar, hlast, hx, if_false, List.reverse_cons]
        rw [takeWhile_append_of_forall _ _ hall]
        simp [List.takeWhile_cons, hx]

theorem goEndsWith_false_of_findSub_none (s sub : List Char)
    (h : findSub s sub = none) : goEndsWith s sub = false := by
  by_contra hc
  rw [Bool.not_eq_false] at hc
  obtain ⟨t, ht⟩ := (goEndsWith_iff s sub).mp hc
  have hmem : t.length ∈ List.range (s.length + 1) := by
    rw [List.mem_range, ht, List.length_append]
    omega
  have hnone := List.find?_eq_none.mp h _ hmem
  apply hnone
  rw [ht, List.drop_left]
  exact (goStartsWith_iff sub sub).mpr ⟨[], by simp⟩

theorem goEndsWith_of_findSub_last (s sub : List Char)
    (h : findSub s sub = some (s.length - sub.length)) : goEndsWith s sub = true := by
  have hp := List.find?_some h
  obtain ⟨t, ht⟩ := (goStartsWith_iff _ _).mp hp
  have hlen := congrArg List.length ht
  rw [List.length_drop, List.length_append] at hlen
  have ht0 : t = [] := by
    rw [List.length_eq_zero.symm]
    omega
  subst ht0
  rw [List.append_nil] at ht
  rw [goEndsWith_iff]
  refine ⟨s.take (s.length - sub.length), ?_⟩
  conv_lhs => rw [← List.take_append_drop (s.length - sub.length) s]
  rw [ht]

/-! ### The claims -/

/-- C6: on the multi-field line
`"Created: 2024-01-01 10:00:00 PID: 1234 Owner: alice"`, `extractValue`
yields exactly the named field's value — `"2024-01-01 10:00:00"` for
`Created:` (and, likewise, `"1234"` for `PID:` and `"alice"` for
`Owner:`) — stopping where a whitespace run is followed by an
uppercase-initial token with a colon within the next 20 characters. -/
theorem extractValue_multi_field :
    extractValue (("Created: 2024-01-01 10:00:00 PID: 1234 Owner: alice").toList)
        (("Created:").toList) = ("2024-01-01 10:00:00").toList
  ∧ extractValue (("Created: 2024-01-01 10:00:00 PID: 1234 Owner: alice").toList)
        (("PID:").toList) = ("1234").toList
  ∧ extractValue (("Created: 2024-01-01 10:00:00 PID: 1234 Owner: alice").toList)
        (("Owner:").toList) = ("alice").toList := by
  refine ⟨?_, ?_, ?_⟩ <;> rfl

/-- C7: `formatBytes` converts to the largest 1024-based unit with two
decimal places: `0 ↦ "0 B"`, `1023 ↦ "1023 B"`, `1024 ↦ "1.00 KB"`,
`1048576 ↦ "1.00 MB"`, `1073741824 ↦ "1.00 GB"`. -/
theorem formatBytes_units :
    formatBytes (("0").toList) = ("0 B").toList
  ∧ formatBytes (("1023").toList) = ("1023 B").toList
  ∧ formatBytes (("1024").toList) = ("1.00 KB").toList
  ∧ formatBytes (("1048576").toList) = ("1.00 MB").toList
  ∧ formatBytes (("1073741824").toList) = ("1.00 GB").toList := by
  refine ⟨?_, ?_, ?_, ?_, ?_⟩ <;> rfl

/-- C10: whenever the `%d` scan of the input fails (in particular for every
string that does not begin with a decimal integer after optional leading
whitespace), `formatBytes` renders the zero value, i.e. returns exactly
`"0 B"`. -/
theorem formatBytes_unparsable (s : List Char) (h : goScanInt s = none) :
    formatBytes s = ("0 B").toList := by
  simp only [formatBytes, h]
  rfl

/-- Witness for C10 at the concrete unparsable input `"bogus"`. -/
theorem formatBytes_unparsable_witness :
    goScanInt (("bogus").toList) = none
  ∧ formatBytes (("bogus").toList) = ("0 B").toList :=
  ⟨by decide, formatBytes_unparsable (("bogus").toList) (by decide)⟩

/-- C9: `RemoveProfile` leaves the list unchanged at any out-of-bounds
index (negative or at least the length) and, at an in-bounds index, removes
exactly that entry (`List.eraseIdx`), preserving the order of the rest. -/
theorem removeProfile_bounds (ps : List Profile) (i : Int) :
    ((i < 0 ∨ (ps.length : Int) ≤ i) → removeProfile ps i = ps)
  ∧ (0 ≤ i → i < (ps.length : Int) → removeProfile ps i = ps.eraseIdx i.toNat) := by
  constructor
  · intro h
    have hc : ¬(0 ≤ i ∧ i < (ps.length : Int)) := by omega
    unfold removeProfile
    rw [if_neg hc]
  · intro h1 h2
    unfold removeProfile
    rw [if_pos ⟨h1, h2⟩, List.eraseIdx_eq_take_drop_succ]

/-- Witness for C9 on a two-profile list: index 5 is a no-op, index 0
deletes the first entry. -/
theorem removeProfile_bounds_witness :
    removeProfile [⟨("a").toList, ("pa").toList⟩, ⟨("b").toList, ("pb").toList⟩] 5
      = [⟨("a").toList, ("pa").toList⟩, ⟨("b").toList, ("pb").toList⟩]
  ∧ removeProfile [⟨("a").toList, ("pa").toList⟩, ⟨("b").toList, ("pb").toList⟩] 0
      = [⟨("b").toList, ("pb").toList⟩] := by
  constructor
  · exact (removeProfile_bounds _ 5).1 (by decide)
  · rw [(removeProfile_bounds
      [⟨("a").toList, ("pa").toList⟩, ⟨("b").toList, ("pb").toList⟩] 0).2
        (by decide) (by decide)]
    rfl

/-- C5: `isProfileConnected` reports a profile connected exactly when some
session's config name equals the profile path's final path segment with a
trailing `.ovpn` removed; in particular `/home/u/Work.ovpn` normalizes to
`Work`. -/
theorem isProfileConnected_iff :
    (∀ (m : Model) (path : List Char),
        m.isProfileConnected path = true ↔
          ∃ s ∈ m.sessions, s.configName = specConnectedName path)
  ∧ specConnectedName (("/home/u/Work.ovpn").toList) = ("Work").toList := by
  constructor
  · intro m path
    simp only [Model.isProfileConnected, lastSegmentOf_eq, specConnectedName,
      List.any_eq_true, decide_eq_true_eq]
  · rfl

/-- C8 counterexample: when the availability marker occurs in mid-string,
the stored config name is the truncation at the marker (here `"x"`), not
the claim's value obtained by stripping a trailing marker suffix (here
`"x(Config not available)y"`). -/
theorem configName_midstring_marker_counterexample :
    (parseSessionsList c8Listing).map Session.configName = [("x").toList]
  ∧ specConfigName (extractValue c8Line (("Config name:").toList))
      = ("x(Config not available)y").toList
  ∧ ("x").toList ≠ ("x(Config not available)y").toList := by
  refine ⟨?_, ?_, ?_⟩ <;> decide

/-- C8 amended: when the first occurrence of `"(Config not available)"` in
the raw value is absent or is exactly a trailing suffix, the stored config
name equals the spec pipeline (strip trailing marker and trim, keep the
final path segment, drop a trailing `.ovpn`); in general the code truncates
at the FIRST marker occurrence rather than stripping a trailing one. -/
theorem processConfigName_eq_spec (raw : List Char)
    (h : findSub raw cNotAvailable = none ∨
         findSub raw cNotAvailable = some (raw.length - cNotAvailable.length)) :
    processConfigName raw = specConfigName raw := by
  rcases h with h | h
  · have hends := goEndsWith_false_of_findSub_none raw cNotAvailable h
    simp only [processConfigName, specConfigName, specStripMarker, h, hends,
      Bool.false_eq_true, if_false, lastSegmentOf_eq]
  · have hends := goEndsWith_of_findSub_last raw cNotAvailable h
    simp only [processConfigName, specConfigName, specStripMarker, h, hends,
      if_true, lastSegmentOf_eq]

/-- Helper: `handleEnter` clears both messages up front and every one of its
branches sets at most one of them. -/
theorem handleEnter_message_discipline (m : Model) :
    (m.handleEnter).1.statusMsg = [] ∨ (m.handleEnter).1.errorMsg = [] := by
  simp only [Model.handleEnter, Model.clearMessages]
  split
  · split
    · left; rfl
    · split
      · left; rfl
      · split
        · left; rfl
        · right; rfl
  · split
    · left; rfl
    · left; rfl

/-- Helper: `handleDelete` clears both messages up front and every one of its
branches sets at most one of them. -/
theorem handleDelete_message_discipline (m : Model) (env : Env) :
    (m.handleDelete env).1.statusMsg = [] ∨ (m.handleDelete env).1.errorMsg = [] := by
  rcases hsv : env.saveResult with _ | e <;>
    simp only [Model.handleDelete, Model.clearMessages, hsv] <;>
    split
  · split
    · split
      · right; rfl
      · right; rfl
    · left; rfl
  · split
    · right; rfl
    · left; rfl
  · split
    · split
      · left; rfl
      · left; rfl
    · left; rfl
  · split
    · right; rfl
    · left; rfl

/-- C1 amended: every view-switch or action keystroke handled in normal
mode (`tab`, `enter`, `d`, `r`) first clears both messages and then sets at
most one of them, so immediately after such a keystroke at most one of the
status and error message is non-empty.  (Task-completion messages, by
contrast, set their message without clearing the other — see the
counterexample.) -/
theorem action_keys_clear_messages (m : Model) (env : Env)
    (hmode : m.inputMode = InputMode.noInput) :
    ((m.update env (Msg.key Key.tab)).1.statusMsg = []
       ∨ (m.update env (Msg.key Key.tab)).1.errorMsg = [])
  ∧ ((m.update env (Msg.key Key.enter)).1.statusMsg = []
       ∨ (m.update env (Msg.key Key.enter)).1.errorMsg = [])
  ∧ ((m.update env (Msg.key Key.d)).1.statusMsg = []
       ∨ (m.update env (Msg.key Key.d)).1.errorMsg = [])
  ∧ ((m.update env (Msg.key Key.r)).1.statusMsg = []
       ∨ (m.update env (Msg.key Key.r)).1.errorMsg = []) := by
  have htab : m.update env (Msg.key Key.tab)
      = ((if m.currentView = View.profiles then { m with currentView := View.sessions }
          else { m with currentView := View.profiles }).clearMessages, []) := by
    simp [Model.update, hmode]
  have hent : m.update env (Msg.key Key.enter) = m.handleEnter := by
    simp [Model.update, hmode]
  have hdel : m.update env (Msg.key Key.d) = m.handleDelete env := by
    simp [Model.update, hmode]
  have hr : m.update env (Msg.key Key.r)
      = ({ m.clearMessages with
            loading := true,
            loadingMsg := ("Refreshing sessions...").toList },
         [Cmd.spinnerTick, Cmd.refreshSessions]) := by
    simp [Model.update, hmode]
  refine ⟨?_, ?_, ?_, ?_⟩
  · rw [htab]
    left
    split <;> rfl
  · rw [hent]
    exact handleEnter_message_discipline m
  · rw [hdel]
    exact handleDelete_message_discipline m env
  · rw [hr]
    left
    rfl

/-- Witness for the C1 amended theorem at the concrete model `m4`. -/
theorem action_keys_clear_messages_witness :
    (m4.update env0 (Msg.key Key.tab)).1.statusMsg = []
  ∨ (m4.update env0 (Msg.key Key.tab)).1.errorMsg = [] :=
  (action_keys_clear_messages m4 env0 rfl).1

/-- C1 counterexample: pressing enter on a connectable profile sets the
status line, and a following failed connect completion sets the error line
WITHOUT clearing the status line, so both are non-empty in the resulting
state and the view renders two message lines. -/
theorem both_messages_shown_counterexample :
    ((m4.update env0 (Msg.key Key.enter)).1.update env0
        (Msg.connectResult (some (("exit status 1").toList)))).1.statusMsg
      = ("Connecting to Work...").toList
  ∧ ((m4.update env0 (Msg.key Key.enter)).1.update env0
        (Msg.connectResult (some (("exit status 1").toList)))).1.errorMsg
      = ("Connection failed: exit status 1").toList
  ∧ (((m4.update env0 (Msg.key Key.enter)).1.update env0
        (Msg.connectResult (some (("exit status 1").toList)))).1.viewMessages).length
      = 2 := by
  refine ⟨?_, ?_, ?_⟩ <;> decide

/-- C2 amended: a successful session-list refresh replaces the session list
and clamps the SESSION cursor into `[0, L)` (to `0` when `L = 0`) for every
prior value; the profile cursor and profile list are untouched by a session
refresh (the profile cursor is clamped by profile deletion instead). -/
theorem sessionRefresh_cursor_clamp (m : Model) (env : Env) (ss : List Session) :
    ((m.update env (Msg.sessionRefresh ss none)).1.sessionCursor < ss.length
       ∨ (ss.length = 0
            ∧ (m.update env (Msg.sessionRefresh ss none)).1.sessionCursor = 0))
  ∧ (m.update env (Msg.sessionRefresh ss none)).1.sessions = ss
  ∧ (m.update env (Msg.sessionRefresh ss none)).1.profileCursor = m.profileCursor
  ∧ (m.update env (Msg.sessionRefresh ss none)).1.profiles = m.profiles := by
  have hupd : (m.update env (Msg.sessionRefresh ss none)).1
      = if ss.length ≤ m.sessionCursor then
          { m with loading := false, sessions := ss,
                   sessionCursor := max 0 (ss.length - 1) }
        else { m with loading := false, sessions := ss } := rfl
  rw [hupd]
  by_cases hc : ss.length ≤ m.sessionCursor
  · rw [if_pos hc]
    refine ⟨?_, rfl, rfl, rfl⟩
    show max 0 (ss.length - 1) < ss.length ∨ (ss.length = 0 ∧ max 0 (ss.length - 1) = 0)
    simp only [Nat.zero_max]
    omega
  · rw [if_neg hc]
    refine ⟨?_, rfl, rfl, rfl⟩
    left
    show m.sessionCursor < ss.length
    omega

/-- C2 counterexample: a session refresh does not clamp the profile cursor,
so a stale out-of-bounds profile cursor (5, against a 1-entry profile list)
survives the refresh, violating the claimed invariant for both cursors. -/
theorem sessionRefresh_stale_profile_cursor :
    (mStaleCursor.update env0 (Msg.sessionRefresh [emptySession] none)).1.profileCursor = 5
  ∧ (mStaleCursor.update env0 (Msg.sessionRefresh [emptySession] none)).1.profiles.length = 1
  ∧ (mStaleCursor.update env0 (Msg.sessionRefresh [emptySession] none)).1.sessions.length = 1
  ∧ ¬((mStaleCursor.update env0 (Msg.sessionRefresh [emptySession] none)).1.profileCursor
        < (mStaleCursor.update env0
            (Msg.sessionRefresh [emptySession] none)).1.profiles.length
      ∨ (mStaleCursor.update env0
          (Msg.sessionRefresh [emptySession] none)).1.profileCursor = 0) := by
  refine ⟨?_, ?_, ?_, ?_⟩ <;> decide

/-- C3: a connect completion carrying an error leaves `loading = false`,
sets a non-empty error message and schedules nothing (in particular no
session-list refresh); a connect completion without error schedules exactly
the spinner tick plus a session-list refresh, with `loading = true` and the
refresh loading label. -/
theorem connectResult_chaining (m : Model) (env : Env) (e : List Char) :
    ((m.update env (Msg.connectResult (some e))).1.loading = false
     ∧ (m.update env (Msg.connectResult (some e))).1.errorMsg
         = ("Connection failed: ").toList ++ e
     ∧ (m.update env (Msg.connectResult (some e))).1.errorMsg ≠ []
     ∧ (m.update env (Msg.connectResult (some e))).2 = [])
  ∧ ((m.update env (Msg.connectResult none)).1.loading = true
     ∧ (m.update env (Msg.connectResult none)).1.loadingMsg
         = ("Refreshing sessions...").toList
     ∧ (m.update env (Msg.connectResult none)).2
         = [Cmd.spinnerTick, Cmd.refreshSessions]) := by
  refine ⟨⟨rfl, rfl, ?_, rfl⟩, rfl, rfl, rfl⟩
  intro hc
  have hc2 : ("Connection failed: ").toList ++ e = [] := hc
  have hlen := congrArg List.length hc2
  rw [List.length_append, List.length_nil] at hlen
  have h19 : (("Connection failed: ").toList).length = 19 := rfl
  omega

/-- C4: with a non-empty profile list in the Profiles view (cursor in
bounds), enter on an invalid profile only sets the file-not-found error and
schedules nothing; enter on a valid profile whose normalized name matches a
session refuses with the already-connected error and schedules nothing;
otherwise it sets the connecting status, `loading = true`, and schedules
exactly one connect task for the profile's path. -/
theorem profiles_enter_cases (m : Model) (env : Env)
    (hmode : m.inputMode = InputMode.noInput)
    (hview : m.currentView = View.profiles)
    (hcur : m.profileCursor < m.profiles.length) :
    (m.profileValid m.profileCursor = false →
        m.update env (Msg.key Key.enter)
          = ({ m.clearMessages with errorMsg := ("Config file not found").toList }, []))
  ∧ (m.profileValid m.profileCursor = true →
      m.isProfileConnected (m.profiles.getD m.profileCursor ⟨[], []⟩).path = true →
        m.update env (Msg.key Key.enter)
          = ({ m.clearMessages with errorMsg :=
                squote :: ((m.profiles.getD m.profileCursor ⟨[], []⟩).name
                  ++ squote :: (" is already connected").toList) }, []))
  ∧ (m.profileValid m.profileCursor = true →
      m.isProfileConnected (m.profiles.getD m.profileCursor ⟨[], []⟩).path = false →
        m.update env (Msg.key Key.enter)
          = ({ m.clearMessages with
                statusMsg := ("Connecting to ").toList
                  ++ (m.profiles.getD m.profileCursor ⟨[], []⟩).name ++ ("...").toList,
                loading := true,
                loadingMsg := ("Connecting...").toList },
             [Cmd.spinnerTick,
              Cmd.connect (m.profiles.getD m.profileCursor ⟨[], []⟩).path])) := by
  have hent : m.update env (Msg.key Key.enter) = m.handleEnter := by
    simp [Model.update, hmode]
  have hlen0 : ¬((m.profiles.length) = 0) := by omega
  refine ⟨?_, ?_, ?_⟩
  · intro hvalid
    rw [hent]
    simp [Model.handleEnter, Model.clearMessages, hview, hlen0, hvalid]
  · intro hvalid hconn
    rw [hent]
    simp [Model.handleEnter, Model.clearMessages, Model.isProfileConnected,
      hview, hlen0, hvalid] at hconn ⊢
    simp [hconn]
  · intro hvalid hconn
    rw [hent]
    simp [Model.handleEnter, Model.clearMessages, Model.isProfileConnected,
      hview, hlen0, hvalid] at hconn ⊢
    exact hconn

/-- Witness for C4 at the concrete model `m4` (the connect branch). -/
theorem profiles_enter_cases_witness :
    m4.update env0 (Msg.key Key.enter)
      = ({ m4.clearMessages with
            statusMsg := ("Connecting to ").toList
              ++ (m4.profiles.getD m4.profileCursor ⟨[], []⟩).name ++ ("...").toList,
            loading := true,
            loadingMsg := ("Connecting...").toList },
         [Cmd.spinnerTick,
          Cmd.connect (m4.profiles.getD m4.profileCursor ⟨[], []⟩).path]) :=
  (profiles_enter_cases m4 env0 rfl rfl (by decide)).2.2 rfl (by decide)

/-- Witness for C8 at a raw value carrying the marker exactly as a trailing
suffix. -/
theorem processConfigName_eq_spec_witness :
    (findSub (("/a/Work.ovpn (Config not available)").toList) cNotAvailable = none ∨
     findSub (("/a/Work.ovpn (Config not available)").toList) cNotAvailable
       = some ((("/a/Work.ovpn (Config not available)").toList).length
                  - cNotAvailable.length))
  ∧ processConfigName (("/a/Work.ovpn (Config not available)").toList)
      = specConfigName (("/a/Work.ovpn (Config not available)").toList) :=
  ⟨Or.inr (by decide),
   processConfigName_eq_spec (("/a/Work.ovpn (Config not available)").toList)
     (Or.inr (by decide))⟩

end OV3
